import Mathlib

/-!
Shallow embedding of the Marco intent pipeline (Go sources):
  pkg/intentparser/intent.go  — `Intent`, `LLMParse`
  pkg/mcp/orchestrator/orchestrator.go — `RouteIntent`
  pkg/mcp/fs/fs.go — `HandleIntent`

Machine-level concerns (the OpenAI network client, the cobra CLI) are
modelled as an abstract backend function; everything the repository's own
code does with the backend's answer is embedded faithfully.
-/

/-- Go struct `intentparser.Intent`: `Module string`, `Name string`
(json tag "intent"), `Params map[string]string`.  The map is embedded as an
association list of string pairs. -/
structure Intent where
  Module : String
  Name   : String
  Params : List (String × String)
deriving DecidableEq, Repr

/- ---------------------------------------------------------------------
JSON unmarshalling.  `LLMParse` calls Go's `encoding/json.Unmarshal` on the
backend's reply.  The model below implements the stdlib's behaviour on the
JSON fragment relevant to the `Intent` struct: the top level must be an
object; `module` and `intent` must be JSON strings; `params` must be an
object all of whose values are JSON strings; `null` field values are
no-ops; unknown keys are ignored; trailing non-whitespace is an error.
(String escape sequences and fractional numbers are outside the modelled
subset; no theorem below depends on them.)
--------------------------------------------------------------------- -/

/-- The characters `{` and `}`. -/
def lbrace : Char := '\x7b'

/-- See `lbrace`. -/
def rbrace : Char := '\x7d'

/-- JSON value tree produced by decoding. -/
inductive JValue where
  | str  (s : String)
  | num  (n : Int)
  | bool (b : Bool)
  | null
  | obj  (fields : List (String × JValue))
  | arr  (elems : List JValue)

/-- Skip JSON whitespace. -/
def skipWs : List Char → List Char
  | [] => []
  | c :: cs =>
    if c == ' ' || c == '\n' || c == '\t' || c == '\r' then skipWs cs else c :: cs

/-- Read the body of a JSON string after the opening quote, up to the
closing quote.  Escape sequences are outside the modelled subset. -/
def parseStringBody : List Char → Option (String × List Char)
  | [] => none
  | c :: cs =>
    if c == '"' then some ("", cs)
    else if c == '\\' then none
    else
      match parseStringBody cs with
      | none => none
      | some (s, rest) => some (String.singleton c ++ s, rest)

/-- Read a run of decimal digits, accumulating their value. -/
def parseDigits : List Char → Nat → Nat × List Char
  | [], acc => (acc, [])
  | c :: cs, acc =>
    if c.isDigit then parseDigits cs (acc * 10 + (c.toNat - 48)) else (acc, c :: cs)

/-- Match the expected characters at the head of the input. -/
def stripChars : List Char → List Char → Option (List Char)
  | [], rest => some rest
  | p :: ps, c :: cs => if c == p then stripChars ps cs else none
  | _ :: _, [] => none

mutual

/-- Decode one JSON value.  `fuel` bounds recursion depth; callers pass the
input length, which always suffices. -/
def parseValue : Nat → List Char → Option (JValue × List Char)
  | 0, _ => none
  | fuel + 1, input =>
    match skipWs input with
    | [] => none
    | c :: cs =>
      if c == '"' then
        match parseStringBody cs with
        | none => none
        | some (s, rest) => some (JValue.str s, rest)
      else if c == lbrace then
        match skipWs cs with
        | d :: ds =>
          if d == rbrace then some (JValue.obj [], ds)
          else
            match parseObjFields fuel (d :: ds) [] with
            | none => none
            | some (fields, rest) => some (JValue.obj fields, rest)
        | [] => none
      else if c == '[' then
        match skipWs cs with
        | d :: ds =>
          if d == ']' then some (JValue.arr [], ds)
          else
            match parseArrElems fuel (d :: ds) [] with
            | none => none
            | some (elems, rest) => some (JValue.arr elems, rest)
        | [] => none
      else if c == 't' then
        match stripChars ['r', 'u', 'e'] cs with
        | none => none
        | some rest => some (JValue.bool true, rest)
      else if c == 'f' then
        match stripChars ['a', 'l', 's', 'e'] cs with
        | none => none
        | some rest => some (JValue.bool false, rest)
      else if c == 'n' then
        match stripChars ['u', 'l', 'l'] cs with
        | none => none
        | some rest => some (JValue.null, rest)
      else if c == '-' then
        match cs with
        | d :: _ =>
          if d.isDigit then
            let (n, rest) := parseDigits cs 0
            some (JValue.num (-(n : Int)), rest)
          else none
        | [] => none
      else if c.isDigit then
        let (n, rest) := parseDigits (c :: cs) 0
        some (JValue.num (n : Int), rest)
      else none

/-- Decode the members of a JSON object after the opening brace (the input
starts at a key). -/
def parseObjFields : Nat → List Char → List (String × JValue) →
    Option (List (String × JValue) × List Char)
  | 0, _, _ => none
  | fuel + 1, input, acc =>
    match skipWs input with
    | [] => none
    | c :: cs =>
      if c == '"' then
        match parseStringBody cs with
        | none => none
        | some (key, rest1) =>
          match skipWs rest1 with
          | d :: ds =>
            if d == ':' then
              match parseValue fuel ds with
              | none => none
              | some (v, rest2) =>
                match skipWs rest2 with
                | e :: es =>
                  if e == ',' then parseObjFields fuel es (acc ++ [(key, v)])
                  else if e == rbrace then some (acc ++ [(key, v)], es)
                  else none
                | [] => none
            else none
          | [] => none
      else none

/-- Decode the elements of a JSON array after the opening bracket (the
input starts at an element). -/
def parseArrElems : Nat → List Char → List JValue →
    Option (List JValue × List Char)
  | 0, _, _ => none
  | fuel + 1, input, acc =>
    match parseValue fuel input with
    | none => none
    | some (v, rest) =>
      match skipWs rest with
      | e :: es =>
        if e == ',' then parseArrElems fuel es (acc ++ [v])
        else if e == ']' then some (acc ++ [v], es)
        else none
      | [] => none

end

/-- Decode an object of string values, as `encoding/json` does for a
`map[string]string` target: every member value must be a JSON string. -/
def strMapOfFields : List (String × JValue) → Option (List (String × String))
  | [] => some []
  | (k, v) :: rest =>
    match v with
    | JValue.str s =>
      match strMapOfFields rest with
      | none => none
      | some m => some ((k, s) :: m)
    | _ => none

/-- Apply one decoded object member to the `Intent` being built, following
`encoding/json` struct decoding: tag "module" and "intent" expect strings,
"params" expects a string map, `null` is a no-op, unknown keys are
ignored. -/
def updateIntentField (i : Intent) (key : String) (v : JValue) : Option Intent :=
  if key = "module" then
    match v with
    | JValue.str s => some { i with Module := s }
    | JValue.null => some i
    | _ => none
  else if key = "intent" then
    match v with
    | JValue.str s => some { i with Name := s }
    | JValue.null => some i
    | _ => none
  else if key = "params" then
    match v with
    | JValue.obj fields =>
      match strMapOfFields fields with
      | none => none
      | some m => some { i with Params := m }
    | JValue.null => some i
    | _ => none
  else some i

/-- Fold the decoded members into an `Intent`, later members overriding
earlier ones, as `encoding/json` does. -/
def applyFields : List (String × JValue) → Intent → Option Intent
  | [], i => some i
  | (k, v) :: rest, i =>
    match updateIntentField i k v with
    | none => none
    | some i2 => applyFields rest i2

/-- Decode a JSON value into an `Intent`; a struct target requires an
object at the top level.  Absent fields keep Go zero values. -/
def intentOfJValue : JValue → Option Intent
  | JValue.obj fields => applyFields fields ⟨"", "", []⟩
  | _ => none

/-- Model of `json.Unmarshal([]byte(raw), &intent)`: `none` is the error
return.  Trailing non-whitespace after the value is an error. -/
def jsonUnmarshalIntent (raw : String) : Option Intent :=
  match parseValue (raw.length + 1) raw.data with
  | none => none
  | some (v, rest) =>
    match skipWs rest with
    | [] => intentOfJValue v
    | _ :: _ => none

/- ---------------------------------------------------------------------
The intent classifier adapter: `LLMParse` (pkg/intentparser/intent.go).
--------------------------------------------------------------------- -/

/-- The `systemPrompt` constant. -/
def systemPromptText : String :=
  "You parse user commands into JSON intents. Output *only* JSON."

/-- `promptTemplate` up to the `%s` placeholder. -/
def promptHead : String :=
  "\nYou are an intent parser. You must output *only* JSON matching this schema:\n\n\x7b\n  \"module\": \"fs\",\n  \"intent\": \"<intent name>\",\n  \"params\": \x7b ... \x7d\n\x7d\n\nExamples:\nUser: \"List all files in src\"\n\x7b\"module\":\"fs\",\"intent\":\"list_dir\",\"params\":\x7b\"path\":\"src\"\x7d\x7d\n\nUser: \"Find TODO comments in pkg/\"\n\x7b\"module\":\"fs\",\"intent\":\"find_pattern\",\"params\":\x7b\"pattern\":\"TODO\",\"path\":\"pkg\"\x7d\x7d\n\nNow parse this command into JSON:\n---\n"

/-- `promptTemplate` after the `%s` placeholder. -/
def promptTail : String := "\n---\n"

/-- `fmt.Sprintf(promptTemplate, userCmd)`. -/
def buildPrompt (userCmd : String) : String := promptHead ++ userCmd ++ promptTail

/-- The chat messages `LLMParse` sends: a (role, content) list. -/
def llmMessages (userCmd : String) : List (String × String) :=
  [("system", systemPromptText), ("user", buildPrompt userCmd)]

/-- The fs actions advertised by the intent classifier's few-shot prompt
(`list_dir` and `find_pattern` are the only actions the prompt teaches). -/
def fsAdvertisedActions : List String := ["list_dir", "find_pattern"]

/-- The error values `LLMParse` can return, by construction site:
`apiError` wraps "LLM API error: %w", `invalidJSON` wraps
"invalid JSON from LLM: %w\nresponse: %s", `missingFields` wraps
"parsed JSON missing fields: %+v". -/
inductive LLMError where
  | apiError (e : String)
  | invalidJSON (raw : String)
  | missingFields (i : Intent)
deriving DecidableEq, Repr

/-- Result of one `LLMParse` run.  `backendCalls` counts invocations of
`client.Chat.Completions.New`; the source contains exactly one call site
and no retry loop. -/
structure LLMOutcome where
  result : Except LLMError Intent
  backendCalls : Nat
deriving Repr

/-- Lines 93-101 of pkg/intentparser/intent.go: unmarshal the response
content, reject an `Intent` whose `Module` or `Name` is empty, otherwise
return it. -/
def decodeLLMContent (raw : String) : Except LLMError Intent :=
  match jsonUnmarshalIntent raw with
  | none => Except.error (LLMError.invalidJSON raw)
  | some intent =>
    if intent.Module = "" ∨ intent.Name = "" then
      Except.error (LLMError.missingFields intent)
    else Except.ok intent

/-- `LLMParse(ctx, userCmd)`.  The network client is abstracted as
`backend : call index → messages → content string or transport error`;
the function makes exactly one backend call (the single
`client.Chat.Completions.New` call site; the source has no retry loop),
surfaces a transport error as "LLM API error", and otherwise decodes
the first choice's content. -/
def LLMParse (backend : Nat → List (String × String) → Except String String)
    (userCmd : String) : LLMOutcome :=
  match backend 0 (llmMessages userCmd) with
  | Except.error e => ⟨Except.error (LLMError.apiError e), 1⟩
  | Except.ok raw => ⟨decodeLLMContent raw, 1⟩

/- ---------------------------------------------------------------------
The fs module (pkg/mcp/fs/fs.go) and the orchestrator
(pkg/mcp/orchestrator/orchestrator.go).
--------------------------------------------------------------------- -/

/-- Insert a pair into a key-sorted list. -/
def insertByKey (p : String × String) :
    List (String × String) → List (String × String)
  | [] => [p]
  | q :: rest => if p.1 ≤ q.1 then p :: q :: rest else q :: insertByKey p rest

/-- Sort an association list by key, as Go's `fmt` sorts map keys. -/
def sortByKey : List (String × String) → List (String × String)
  | [] => []
  | p :: rest => insertByKey p (sortByKey rest)

/-- Go's `fmt` `%v` rendering of a `map[string]string`:
`map[k1:v1 k2:v2]`, keys sorted. -/
def goFormatMap (m : List (String × String)) : String :=
  "map[" ++ String.intercalate " " ((sortByKey m).map (fun p => p.1 ++ ":" ++ p.2)) ++ "]"

/-- The Go `(string, error)` pair returned by `fs.HandleIntent`, plus
`fsOps`, the list of file-system commands executed during the call: every
`exec.Command` line in fs.go is commented out, so the embedding of the live
code emits none. -/
structure FsResult where
  output : String
  err    : Option String
  fsOps  : List String
deriving DecidableEq, Repr

/-- `fs.HandleIntent(name, params)`: the live code is the single
`fmt.Sprintf` return with a nil error; no branch inspects `name` and no
file-system operation runs. -/
def HandleIntent (name : String) (params : List (String × String)) : FsResult :=
  { output := "Handled fs intent: " ++ name ++ " with params: " ++ goFormatMap params
    err := none
    fsOps := [] }

/-- The Go `(string, error)` pair returned by `orchestrator.RouteIntent`,
plus instrumentation: `dispatched` records each module-handler invocation
as (module, action, params), and `fsOps` collects the file-system
operations the invoked handler performed. -/
structure RouteOutcome where
  output : String
  err    : Option String
  dispatched : List (String × String × List (String × String))
  fsOps  : List String
deriving DecidableEq, Repr

/-- `orchestrator.RouteIntent(intent)`: switch on `intent.Module`; case
"fs" forwards `(Name, Params)` to `fs.HandleIntent` and returns its pair;
the default case returns `fmt.Errorf("Unknown module: %s", …)`.  No other
check, confirmation step, or retry exists in the function. -/
def RouteIntent (intent : Intent) : RouteOutcome :=
  if intent.Module = "fs" then
    let h := HandleIntent intent.Name intent.Params
    { output := h.output
      err := h.err
      dispatched := [("fs", intent.Name, intent.Params)]
      fsOps := h.fsOps }
  else
    { output := ""
      err := some ("Unknown module: " ++ intent.Module)
      dispatched := []
      fsOps := [] }

/-- A backend reply carrying the intent the spec's worked example maps
"list files in src" to. -/
def rawListDirSrc : String :=
  "\x7b\"module\":\"fs\",\"intent\":\"list_dir\",\"params\":\x7b\"path\":\"src\"\x7d\x7d"

/-- A backend reply whose params object carries a JSON number value. -/
def rawNumberParam : String :=
  "\x7b\"module\":\"fs\",\"intent\":\"copy\",\"params\":\x7b\"count\":5\x7d\x7d"

/-- A backend reply that is the empty JSON object. -/
def rawEmptyObj : String := "\x7b\x7d"

/- ---------------------------------------------------------------------
Helper lemmas.
--------------------------------------------------------------------- -/

theorem LLMParse_of_backend_ok
    (backend : Nat → List (String × String) → Except String String)
    (userCmd raw : String)
    (hb : backend 0 (llmMessages userCmd) = Except.ok raw) :
    LLMParse backend userCmd = ⟨decodeLLMContent raw, 1⟩ := by
  unfold LLMParse
  rw [hb]

theorem LLMParse_of_backend_err
    (backend : Nat → List (String × String) → Except String String)
    (userCmd e : String)
    (hb : backend 0 (llmMessages userCmd) = Except.error e) :
    LLMParse backend userCmd = ⟨Except.error (LLMError.apiError e), 1⟩ := by
  unfold LLMParse
  rw [hb]

theorem decodeLLMContent_of_none (raw : String)
    (hj : jsonUnmarshalIntent raw = none) :
    decodeLLMContent raw = Except.error (LLMError.invalidJSON raw) := by
  unfold decodeLLMContent
  rw [hj]

theorem decodeLLMContent_of_some (raw : String) (j : Intent)
    (hj : jsonUnmarshalIntent raw = some j) :
    decodeLLMContent raw =
      (if j.Module = "" ∨ j.Name = "" then Except.error (LLMError.missingFields j)
       else Except.ok j) := by
  unfold decodeLLMContent
  rw [hj]

theorem decodeLLMContent_ok (raw : String) (i : Intent)
    (h : decodeLLMContent raw = Except.ok i) :
    jsonUnmarshalIntent raw = some i ∧ i.Module ≠ "" ∧ i.Name ≠ "" := by
  cases hj : jsonUnmarshalIntent raw with
  | none =>
    rw [decodeLLMContent_of_none raw hj] at h
    cases h
  | some j =>
    rw [decodeLLMContent_of_some raw j hj] at h
    by_cases hc : j.Module = "" ∨ j.Name = ""
    · rw [if_pos hc] at h
      cases h
    · rw [if_neg hc] at h
      injection h with h2
      subst h2
      push_neg at hc
      exact ⟨rfl, hc.1, hc.2⟩

/- ---------------------------------------------------------------------
Claim theorems.
--------------------------------------------------------------------- -/

/-- C1, counterexample: `delete_file` is not among the actions the
classifier prompt advertises for the fs module, yet `RouteIntent`
dispatches an Intent with that action to the fs handler, which handles it
successfully — the claimed capability-list gate does not exist. -/
theorem routeIntent_dispatches_unadvertised_action :
    ("delete_file" ∉ fsAdvertisedActions) ∧
    (RouteIntent ⟨"fs", "delete_file", []⟩).dispatched = [("fs", "delete_file", [])] ∧
    (RouteIntent ⟨"fs", "delete_file", []⟩).err = none := by
  refine ⟨by decide, rfl, rfl⟩

/-- C1, amended: the orchestrator's only dispatch-eligibility check is
`module = "fs"`; the action name and the parameters are forwarded to the
fs handler unchecked, with no capability list and no schema validation. -/
theorem routeIntent_checks_only_module (i : Intent) :
    (RouteIntent i).dispatched =
      (if i.Module = "fs" then [("fs", i.Name, i.Params)] else []) := by
  by_cases h : i.Module = "fs" <;> simp [RouteIntent, HandleIntent, h]

/-- C2, counterexample: an Intent with the destructive action
`delete_file` is dispatched to the fs module by `RouteIntent` — the whole
dispatch path, which contains no confirmation call of any kind — and the
handler reports success. -/
theorem routeIntent_dispatches_delete_file_unconfirmed :
    (RouteIntent ⟨"fs", "delete_file", [("path", "notes.txt")]⟩).dispatched =
      [("fs", "delete_file", [("path", "notes.txt")])] ∧
    (RouteIntent ⟨"fs", "delete_file", [("path", "notes.txt")]⟩).err = none := by
  exact ⟨rfl, rfl⟩

/-- C2, amended: routing a `delete_file` Intent dispatches it to the fs
handler unconditionally — no confirmation step exists anywhere on the
path — but the stub handler performs no file-system operation, so the
unconfirmed dispatch has no destructive effect. -/
theorem routeIntent_delete_file_unconfirmed_no_effect
    (params : List (String × String)) :
    RouteIntent ⟨"fs", "delete_file", params⟩ =
      ⟨"Handled fs intent: delete_file with params: " ++ goFormatMap params,
        none, [("fs", "delete_file", params)], []⟩ := rfl

/-- C3: the fs intent handler is total and never fails — for every action
name and parameter list it returns the formatted success string with a nil
error and performs no file-system operation. -/
theorem handleIntent_total_success (name : String)
    (params : List (String × String)) :
    HandleIntent name params =
      ⟨"Handled fs intent: " ++ name ++ " with params: " ++ goFormatMap params,
        none, []⟩ := rfl

/-- C4: routing an Intent whose module is not "fs" returns the
"Unknown module" error naming that module, with no handler invoked and no
retry (the outcome of the single switch is final); an Intent with module
"fs" is dispatched to the fs handler with a nil error. -/
theorem routeIntent_unknown_module_rejected (i : Intent) :
    (i.Module = "fs" →
      (RouteIntent i).dispatched = [("fs", i.Name, i.Params)] ∧
      (RouteIntent i).err = none) ∧
    (i.Module ≠ "fs" →
      RouteIntent i = ⟨"", some ("Unknown module: " ++ i.Module), [], []⟩) := by
  constructor
  · intro h
    simp [RouteIntent, HandleIntent, h]
  · intro h
    simp [RouteIntent, h]

/-- C4, witness at module "fs" and at the unregistered module "canvas". -/
theorem routeIntent_unknown_module_rejected_witness :
    ((RouteIntent ⟨"fs", "list_dir", []⟩).dispatched = [("fs", "list_dir", [])] ∧
      (RouteIntent ⟨"fs", "list_dir", []⟩).err = none) ∧
    RouteIntent ⟨"canvas", "get_assignments", []⟩ =
      ⟨"", some "Unknown module: canvas", [], []⟩ :=
  ⟨(routeIntent_unknown_module_rejected ⟨"fs", "list_dir", []⟩).1 rfl,
   (routeIntent_unknown_module_rejected ⟨"canvas", "get_assignments", []⟩).2
     (by decide)⟩

/-- C5, counterexample: with a backend that fails every call, `LLMParse`
makes exactly one backend call — the first failure is surfaced with zero
retries, not after the claimed single retry (which would take two calls). -/
theorem llmparse_no_retry_double_failure :
    (LLMParse (fun _ _ => Except.error "timeout") "list files").backendCalls = 1 ∧
    ¬ (LLMParse (fun _ _ => Except.error "timeout") "list files").backendCalls = 2 ∧
    (LLMParse (fun _ _ => Except.error "timeout") "list files").result =
      Except.error (LLMError.apiError "timeout") := by
  refine ⟨rfl, by decide, rfl⟩

/-- C5, amended: the classifier adapter applies zero retries — every run
makes exactly one backend call, and a transport failure of that call is
surfaced immediately as the API error. -/
theorem llmparse_single_call_surfaces_first_failure
    (backend : Nat → List (String × String) → Except String String)
    (userCmd : String) :
    (LLMParse backend userCmd).backendCalls = 1 ∧
    (∀ e, backend 0 (llmMessages userCmd) = Except.error e →
      (LLMParse backend userCmd).result = Except.error (LLMError.apiError e)) := by
  constructor
  · unfold LLMParse
    cases backend 0 (llmMessages userCmd) <;> rfl
  · intro e hb
    rw [LLMParse_of_backend_err backend userCmd e hb]

/-- C5, amended witness at a concrete timed-out backend. -/
theorem llmparse_single_call_surfaces_first_failure_witness :
    (LLMParse (fun _ _ => Except.error "dial tcp: i/o timeout") "x").backendCalls = 1 ∧
    (LLMParse (fun _ _ => Except.error "dial tcp: i/o timeout") "x").result =
      Except.error (LLMError.apiError "dial tcp: i/o timeout") :=
  ⟨(llmparse_single_call_surfaces_first_failure
      (fun _ _ => Except.error "dial tcp: i/o timeout") "x").1,
   (llmparse_single_call_surfaces_first_failure
      (fun _ _ => Except.error "dial tcp: i/o timeout") "x").2
     "dial tcp: i/o timeout" rfl⟩

/-- C6, counterexample: a backend reply that does not parse as the
expected JSON shape makes `LLMParse` return a hard "invalid JSON" error —
no candidate with confidence 0 is produced (no candidate type exists in
the code at all). -/
theorem llmparse_unparseable_is_hard_error :
    (LLMParse (fun _ _ => Except.ok "not json") "list files in src").result =
      Except.error (LLMError.invalidJSON "not json") := rfl

/-- C6, amended: every backend reply whose content fails to unmarshal as
the Intent shape is surfaced as the hard error `invalidJSON` carrying the
raw response; it is never converted into a zero-confidence candidate. -/
theorem llmparse_unparseable_response_error
    (backend : Nat → List (String × String) → Except String String)
    (userCmd raw : String)
    (hb : backend 0 (llmMessages userCmd) = Except.ok raw)
    (hj : jsonUnmarshalIntent raw = none) :
    (LLMParse backend userCmd).result = Except.error (LLMError.invalidJSON raw) := by
  rw [LLMParse_of_backend_ok backend userCmd raw hb]
  exact decodeLLMContent_of_none raw hj

/-- C6, amended witness at a concrete refusal reply. -/
theorem llmparse_unparseable_response_error_witness :
    (LLMParse (fun _ _ => Except.ok "Sorry, I cannot help.") "rm -rf").result =
      Except.error (LLMError.invalidJSON "Sorry, I cannot help.") :=
  llmparse_unparseable_response_error
    (fun _ _ => Except.ok "Sorry, I cannot help.") "rm -rf" "Sorry, I cannot help."
    rfl rfl

/-- C7: every Intent `LLMParse` returns has a non-empty module and a
non-empty action name, and a backend reply whose parsed JSON has an empty
module or action field yields the "missing fields" error instead of an
Intent. -/
theorem llmparse_nonempty_module_action
    (backend : Nat → List (String × String) → Except String String)
    (userCmd : String) :
    (∀ i, (LLMParse backend userCmd).result = Except.ok i →
      i.Module ≠ "" ∧ i.Name ≠ "") ∧
    (∀ raw i, backend 0 (llmMessages userCmd) = Except.ok raw →
      jsonUnmarshalIntent raw = some i → i.Module = "" ∨ i.Name = "" →
      (LLMParse backend userCmd).result =
        Except.error (LLMError.missingFields i)) := by
  constructor
  · intro i h
    cases hb : backend 0 (llmMessages userCmd) with
    | error e =>
      rw [LLMParse_of_backend_err backend userCmd e hb] at h
      cases h
    | ok raw =>
      rw [LLMParse_of_backend_ok backend userCmd raw hb] at h
      exact (decodeLLMContent_ok raw i h).2
  · intro raw i hb hj hc
    rw [LLMParse_of_backend_ok backend userCmd raw hb]
    show decodeLLMContent raw = _
    rw [decodeLLMContent_of_some raw i hj, if_pos hc]

/-- C7, witness: the empty JSON object parses to the zero-valued Intent
and is rejected; a well-formed reply yields an Intent with non-empty
fields. -/
theorem llmparse_nonempty_module_action_witness :
    (LLMParse (fun _ _ => Except.ok rawEmptyObj) "do something").result =
      Except.error (LLMError.missingFields ⟨"", "", []⟩) ∧
    ((⟨"fs", "list_dir", [("path", "src")]⟩ : Intent).Module ≠ "" ∧
      (⟨"fs", "list_dir", [("path", "src")]⟩ : Intent).Name ≠ "") :=
  ⟨(llmparse_nonempty_module_action (fun _ _ => Except.ok rawEmptyObj)
      "do something").2 rawEmptyObj ⟨"", "", []⟩ rfl rfl (Or.inl rfl),
   (llmparse_nonempty_module_action (fun _ _ => Except.ok rawListDirSrc)
      "list files in src").1 ⟨"fs", "list_dir", [("path", "src")]⟩ rfl⟩

/-- C8: the Intent the spec's worked example maps "list files in src" to —
module "fs", action "list_dir", params path↦src — is dispatched directly:
routing invokes the fs handler once and returns its success string with a
nil error, with no intervening step. -/
theorem routeIntent_list_dir_src_dispatch :
    RouteIntent ⟨"fs", "list_dir", [("path", "src")]⟩ =
      ⟨"Handled fs intent: list_dir with params: map[path:src]", none,
        [("fs", "list_dir", [("path", "src")])], []⟩ := rfl

/-- C9, counterexample: a backend reply whose params object carries a JSON
number value fails to unmarshal — `Params` is a string-to-string map, so a
number (likewise a boolean or nested mapping) cannot be represented in an
Intent, and `LLMParse` returns an error instead of passing it through. -/
theorem llmparse_number_param_rejected :
    jsonUnmarshalIntent rawNumberParam = none ∧
    (LLMParse (fun _ _ => Except.ok rawNumberParam) "copy 5 files").result =
      Except.error (LLMError.invalidJSON rawNumberParam) := ⟨rfl, rfl⟩

/-- C9, amended: an Intent's parameter values are strings only, and
string-valued parameters are passed through to dispatch unchanged: the fs
handler receives exactly the Intent's parameter list. -/
theorem routeIntent_passes_string_params_through (i : Intent)
    (h : i.Module = "fs") :
    (RouteIntent i).dispatched = [("fs", i.Name, i.Params)] ∧
    (RouteIntent i).err = none := by
  simp [RouteIntent, HandleIntent, h]

/-- C9, amended witness at a string-valued parameter list. -/
theorem routeIntent_passes_string_params_through_witness :
    (RouteIntent ⟨"fs", "copy", [("count", "5")]⟩).dispatched =
      [("fs", "copy", [("count", "5")])] ∧
    (RouteIntent ⟨"fs", "copy", [("count", "5")]⟩).err = none :=
  routeIntent_passes_string_params_through ⟨"fs", "copy", [("count", "5")]⟩ rfl

/-- C10: raw user text plays no part in dispatch — any two Intents
produced by `LLMParse` from different raw inputs (even against different
backends) that agree on module, action, and parameters are routed
identically, with the same handler invocation and the same result. -/
theorem dispatch_independent_of_raw_input
    (backend1 backend2 : Nat → List (String × String) → Except String String)
    (cmd1 cmd2 : String) (i1 i2 : Intent)
    (h1 : (LLMParse backend1 cmd1).result = Except.ok i1)
    (h2 : (LLMParse backend2 cmd2).result = Except.ok i2)
    (hm : i1.Module = i2.Module) (hn : i1.Name = i2.Name)
    (hp : i1.Params = i2.Params) :
    RouteIntent i1 = RouteIntent i2 := by
  have : i1 = i2 := by
    cases i1
    cases i2
    simp_all
  rw [this]

/-- C10, witness: two different raw inputs whose backend replies decode to
the same Intent are routed identically. -/
theorem dispatch_independent_of_raw_input_witness :
    (LLMParse (fun _ _ => Except.ok rawListDirSrc) "list files in src").result =
      Except.ok ⟨"fs", "list_dir", [("path", "src")]⟩ ∧
    (LLMParse (fun _ _ => Except.ok rawListDirSrc) "please enumerate src").result =
      Except.ok ⟨"fs", "list_dir", [("path", "src")]⟩ ∧
    RouteIntent ⟨"fs", "list_dir", [("path", "src")]⟩ =
      RouteIntent ⟨"fs", "list_dir", [("path", "src")]⟩ :=
  ⟨rfl, rfl,
   dispatch_independent_of_raw_input
     (fun _ _ => Except.ok rawListDirSrc) (fun _ _ => Except.ok rawListDirSrc)
     "list files in src" "please enumerate src"
     ⟨"fs", "list_dir", [("path", "src")]⟩ ⟨"fs", "list_dir", [("path", "src")]⟩
     rfl rfl rfl rfl rfl⟩
